import Mathlib

/-
Verification of the SSE stream decoder in `src/src-tauri/src/commands/claude.rs`
(functions `send_message` and `send_message_with_tools`).

The embedding models the per-call stream processing: a list of byte chunks
(each chunk a `List Nat` of byte values) is decoded chunk-by-chunk with lossy
UTF-8 decoding, buffered, split into newline-terminated lines, filtered to
`data: ` frames, and each frame's JSON payload is decoded into a `StreamEvent`
and dispatched by its `type` field, mutating the per-call state and pushing
notifications (Tauri `emit` calls) to an observer trace.  The HTTP layer
(request construction, status handling, keychain lookup) is out of scope, as
is transport failure (`ClaudeError.Network`): the model starts from the byte
stream the transport delivers.
-/

namespace Writecraft

/-- JSON values as produced by the external `serde_json` library.  Modelled
from the spec: the payload shapes of section 6 carry only objects, arrays,
strings, booleans, nulls and (for the `index` field) integers, so numbers are
modelled as integers. -/
inductive Json where
  | null : Json
  | bool : Bool → Json
  | num : Int → Json
  | str : String → Json
  | arr : List Json → Json
  | obj : List (String × Json) → Json

/-- The left brace character. -/
def braceL : Char := Char.ofNat 123

/-- The right brace character. -/
def braceR : Char := Char.ofNat 125

/-- JSON insignificant whitespace, as accepted by `serde_json`. -/
def isWsChar (c : Char) : Bool := c = ' ' || c = '\t' || c = '\n' || c = '\r'

/-- Skip insignificant whitespace. -/
def skipWs (cs : List Char) : List Char := cs.dropWhile isWsChar

/-- Value of a hexadecimal digit. -/
def hexVal? (c : Char) : Option Nat :=
  if '0' ≤ c ∧ c ≤ '9' then some (c.toNat - '0'.toNat)
  else if 'a' ≤ c ∧ c ≤ 'f' then some (c.toNat - 'a'.toNat + 10)
  else if 'A' ≤ c ∧ c ≤ 'F' then some (c.toNat - 'A'.toNat + 10)
  else none

/-- Parse the body of a JSON string after the opening quote, returning the
decoded characters and the input after the closing quote.  Follows the strict
rules of `serde_json`: raw control characters are rejected, escape sequences
are the JSON ones, `\uXXXX` surrogate pairs are combined and lone surrogates
are rejected. -/
def parseStringBody : Nat → List Char → Option (List Char × List Char)
  | 0, _ => none
  | fuel + 1, cs =>
    match cs with
    | [] => none
    | c :: rest =>
      if c = '\"' then some ([], rest)
      else if c = '\\' then
        match rest with
        | [] => none
        | e :: rest2 =>
          if e = '\"' ∨ e = '\\' ∨ e = '/' then
            (fun p : List Char × List Char => (e :: p.1, p.2)) <$> parseStringBody fuel rest2
          else if e = 'b' then
            (fun p : List Char × List Char => (Char.ofNat 8 :: p.1, p.2)) <$> parseStringBody fuel rest2
          else if e = 'f' then
            (fun p : List Char × List Char => (Char.ofNat 12 :: p.1, p.2)) <$> parseStringBody fuel rest2
          else if e = 'n' then
            (fun p : List Char × List Char => ('\n' :: p.1, p.2)) <$> parseStringBody fuel rest2
          else if e = 'r' then
            (fun p : List Char × List Char => ('\r' :: p.1, p.2)) <$> parseStringBody fuel rest2
          else if e = 't' then
            (fun p : List Char × List Char => ('\t' :: p.1, p.2)) <$> parseStringBody fuel rest2
          else if e = 'u' then
            match rest2 with
            | h1 :: h2 :: h3 :: h4 :: rest3 =>
              match hexVal? h1, hexVal? h2, hexVal? h3, hexVal? h4 with
              | some v1, some v2, some v3, some v4 =>
                let n := ((v1 * 16 + v2) * 16 + v3) * 16 + v4
                if 0xD800 ≤ n ∧ n ≤ 0xDBFF then
                  match rest3 with
                  | '\\' :: 'u' :: g1 :: g2 :: g3 :: g4 :: rest4 =>
                    match hexVal? g1, hexVal? g2, hexVal? g3, hexVal? g4 with
                    | some w1, some w2, some w3, some w4 =>
                      let m := ((w1 * 16 + w2) * 16 + w3) * 16 + w4
                      if 0xDC00 ≤ m ∧ m ≤ 0xDFFF then
                        let cp := 0x10000 + (n - 0xD800) * 0x400 + (m - 0xDC00)
                        (fun p : List Char × List Char => (Char.ofNat cp :: p.1, p.2)) <$>
                          parseStringBody fuel rest4
                      else none
                    | _, _, _, _ => none
                  | _ => none
                else if 0xDC00 ≤ n ∧ n ≤ 0xDFFF then none
                else
                  (fun p : List Char × List Char => (Char.ofNat n :: p.1, p.2)) <$>
                    parseStringBody fuel rest3
              | _, _, _, _ => none
            | _ => none
          else none
      else if c.toNat < 0x20 then none
      else (fun p : List Char × List Char => (c :: p.1, p.2)) <$> parseStringBody fuel rest

/-- Digits to a natural number. -/
def digitsToNat (ds : List Char) : Nat :=
  ds.foldl (fun a c => a * 10 + (c.toNat - '0'.toNat)) 0

/-- Parse a JSON number.  The payload shapes used by the wire protocol carry
only integers, so fractional and exponent forms are not modelled. -/
def parseNumber (cs : List Char) : Option (Json × List Char) :=
  let p := match cs with
    | '-' :: r => (true, r)
    | _ => (false, cs)
  let ds := p.2.takeWhile Char.isDigit
  let rest := p.2.dropWhile Char.isDigit
  if ds.isEmpty then none
  else if ds.length > 1 ∧ ds.headD '0' = '0' then none
  else
    match rest with
    | '.' :: _ => none
    | 'e' :: _ => none
    | 'E' :: _ => none
    | _ =>
      let n : Int := Int.ofNat (digitsToNat ds)
      some (Json.num (if p.1 then -n else n), rest)

mutual

/-- Parse one JSON value, returning it and the remaining input. -/
def parseValue : Nat → List Char → Option (Json × List Char)
  | 0, _ => none
  | fuel + 1, cs =>
    match skipWs cs with
    | [] => none
    | c :: rest =>
      if c = braceL then
        match skipWs rest with
        | c2 :: rest2 =>
          if c2 = braceR then some (Json.obj [], rest2)
          else (fun p : List (String × Json) × List Char => (Json.obj p.1, p.2)) <$>
            parseMembers fuel (c2 :: rest2)
        | [] => none
      else if c = '[' then
        match skipWs rest with
        | ']' :: rest2 => some (Json.arr [], rest2)
        | cs2 => (fun p : List Json × List Char => (Json.arr p.1, p.2)) <$> parseItems fuel cs2
      else if c = '\"' then
        (fun p : List Char × List Char => (Json.str (String.mk p.1), p.2)) <$>
          parseStringBody (rest.length + 1) rest
      else if c = 't' then
        match rest with
        | 'r' :: 'u' :: 'e' :: r => some (Json.bool true, r)
        | _ => none
      else if c = 'f' then
        match rest with
        | 'a' :: 'l' :: 's' :: 'e' :: r => some (Json.bool false, r)
        | _ => none
      else if c = 'n' then
        match rest with
        | 'u' :: 'l' :: 'l' :: r => some (Json.null, r)
        | _ => none
      else if c = '-' ∨ c.isDigit then parseNumber (c :: rest)
      else none

/-- Parse the members of a JSON object after the opening brace (first member
expected next), up to and including the closing brace. -/
def parseMembers : Nat → List Char → Option (List (String × Json) × List Char)
  | 0, _ => none
  | fuel + 1, cs =>
    match cs with
    | '\"' :: rest =>
      match parseStringBody (rest.length + 1) rest with
      | none => none
      | some (key, rest2) =>
        match skipWs rest2 with
        | ':' :: rest3 =>
          match parseValue fuel rest3 with
          | none => none
          | some (v, rest4) =>
            match skipWs rest4 with
            | c5 :: rest5 =>
              if c5 = ',' then
                (fun p : List (String × Json) × List Char =>
                  ((String.mk key, v) :: p.1, p.2)) <$> parseMembers fuel (skipWs rest5)
              else if c5 = braceR then some ([(String.mk key, v)], rest5)
              else none
            | [] => none
        | _ => none
    | _ => none

/-- Parse the items of a JSON array after the opening bracket (first item
expected next), up to and including the closing bracket. -/
def parseItems : Nat → List Char → Option (List Json × List Char)
  | 0, _ => none
  | fuel + 1, cs =>
    match parseValue fuel cs with
    | none => none
    | some (v, rest) =>
      match skipWs rest with
      | ',' :: rest2 => (fun p : List Json × List Char => (v :: p.1, p.2)) <$> parseItems fuel rest2
      | ']' :: rest2 => some ([v], rest2)
      | _ => none

end

/-- Strict parse of a whole JSON document, as `serde_json::from_str` does:
the value must be followed only by whitespace. -/
def Json.parse? (s : String) : Option Json :=
  match parseValue (s.data.length + 2) s.data with
  | some (j, rest) => if (skipWs rest).isEmpty then some j else none
  | none => none

/-- `struct ContentBlockDelta` of `claude.rs`: the `delta` payload of a
`content_block_delta` event. -/
structure ContentBlockDelta where
  delta_type : String
  text : Option String
  partial_json : Option String

/-- `struct ContentBlockStart` of `claude.rs`: the `content_block` payload of
a `content_block_start` event. -/
structure ContentBlockStart where
  block_type : String
  id : Option String
  name : Option String

/-- `struct MessageInfo` of `claude.rs`. -/
structure MessageInfo where
  stop_reason : Option String

/-- `struct ApiError` of `claude.rs`: the payload of an `error` event. -/
structure ApiError where
  error_type : String
  message : String

/-- `struct StreamEvent` of `claude.rs`: one decoded SSE payload. -/
structure StreamEvent where
  event_type : String
  index : Option Nat
  content_block : Option ContentBlockStart
  delta : Option ContentBlockDelta
  message : Option MessageInfo
  error : Option ApiError

/-- Look a key up among the fields of a JSON object (first occurrence). -/
def jLookup (fields : List (String × Json)) (k : String) : Option Json :=
  (fields.find? (fun p => p.1 == k)).map (fun p => p.2)

/-- Serde decoding of an `Option<String>` struct field: an absent or null
field is `none`, a string is `some`, anything else fails the whole decode. -/
def optStringField (fields : List (String × Json)) (k : String) : Option (Option String) :=
  match jLookup fields k with
  | none => some none
  | some Json.null => some none
  | some (Json.str s) => some (some s)
  | some _ => none

/-- Serde decoding of a required `String` struct field. -/
def reqStringField (fields : List (String × Json)) (k : String) : Option String :=
  match jLookup fields k with
  | some (Json.str s) => some s
  | _ => none

/-- Serde decoding of the `Option<usize>` field `index` (with
`#[serde(default)]`). -/
def optNatField (fields : List (String × Json)) (k : String) : Option (Option Nat) :=
  match jLookup fields k with
  | none => some none
  | some Json.null => some none
  | some (Json.num i) => if 0 ≤ i then some (some i.toNat) else none
  | some _ => none

/-- Serde decoding of an `Option<T>` struct field holding a nested struct. -/
def optNested {α : Type} (dec : Json → Option α) (fields : List (String × Json))
    (k : String) : Option (Option α) :=
  match jLookup fields k with
  | none => some none
  | some Json.null => some none
  | some j => (dec j).map some

/-- Serde decoding of `ContentBlockStart` (its `type` field maps to
`block_type`; unknown fields are ignored). -/
def decodeContentBlockStart (j : Json) : Option ContentBlockStart :=
  match j with
  | Json.obj fs => do
    let bt ← reqStringField fs "type"
    let i ← optStringField fs "id"
    let n ← optStringField fs "name"
    pure ⟨bt, i, n⟩
  | _ => none

/-- Serde decoding of `ContentBlockDelta`. -/
def decodeContentBlockDelta (j : Json) : Option ContentBlockDelta :=
  match j with
  | Json.obj fs => do
    let dt ← reqStringField fs "type"
    let tx ← optStringField fs "text"
    let pj ← optStringField fs "partial_json"
    pure ⟨dt, tx, pj⟩
  | _ => none

/-- Serde decoding of `MessageInfo`. -/
def decodeMessageInfo (j : Json) : Option MessageInfo :=
  match j with
  | Json.obj fs => (optStringField fs "stop_reason").map MessageInfo.mk
  | _ => none

/-- Serde decoding of `ApiError`. -/
def decodeApiError (j : Json) : Option ApiError :=
  match j with
  | Json.obj fs => do
    let et ← reqStringField fs "type"
    let m ← reqStringField fs "message"
    pure ⟨et, m⟩
  | _ => none

/-- `serde_json::from_str::<StreamEvent>` on one frame payload: strict JSON
parse followed by structural decode into `StreamEvent`. -/
def decodeStreamEvent (s : String) : Option StreamEvent :=
  match Json.parse? s with
  | some (Json.obj fs) => do
    let et ← reqStringField fs "type"
    let ix ← optNatField fs "index"
    let cb ← optNested decodeContentBlockStart fs "content_block"
    let dl ← optNested decodeContentBlockDelta fs "delta"
    let mg ← optNested decodeMessageInfo fs "message"
    let er ← optNested decodeApiError fs "error"
    pure ⟨et, ix, cb, dl, mg, er⟩
  | _ => none

/-- The Unicode replacement character U+FFFD. -/
def replChar : Char := Char.ofNat 0xFFFD

/-- Is a byte a UTF-8 continuation byte? -/
def isCont (b : Nat) : Bool := 0x80 ≤ b && b ≤ 0xBF

/-- Valid second byte of a three-byte UTF-8 sequence with lead byte `b`. -/
def valid3Second (b b2 : Nat) : Bool :=
  if b = 0xE0 then 0xA0 ≤ b2 && b2 ≤ 0xBF
  else if b = 0xED then 0x80 ≤ b2 && b2 ≤ 0x9F
  else isCont b2

/-- Valid second byte of a four-byte UTF-8 sequence with lead byte `b`. -/
def valid4Second (b b2 : Nat) : Bool :=
  if b = 0xF0 then 0x90 ≤ b2 && b2 ≤ 0xBF
  else if b = 0xF4 then 0x80 ≤ b2 && b2 ≤ 0x8F
  else isCont b2

/-- Worker for `utf8Lossy`; the fuel bounds the number of decoding steps,
each of which consumes at least one byte. -/
def utf8LossyAux : Nat → List Nat → List Char
  | 0, _ => []
  | _, [] => []
  | fuel + 1, b :: rest =>
    if b < 0x80 then Char.ofNat b :: utf8LossyAux fuel rest
    else if 0xC2 ≤ b && b ≤ 0xDF then
      match rest with
      | b2 :: rest2 =>
        if isCont b2 then
          Char.ofNat ((b - 0xC0) * 0x40 + (b2 - 0x80)) :: utf8LossyAux fuel rest2
        else replChar :: utf8LossyAux fuel rest
      | [] => [replChar]
    else if 0xE0 ≤ b && b ≤ 0xEF then
      match rest with
      | b2 :: rest2 =>
        if valid3Second b b2 then
          match rest2 with
          | b3 :: rest3 =>
            if isCont b3 then
              Char.ofNat ((b - 0xE0) * 0x1000 + (b2 - 0x80) * 0x40 + (b3 - 0x80)) ::
                utf8LossyAux fuel rest3
            else replChar :: utf8LossyAux fuel rest2
          | [] => [replChar]
        else replChar :: utf8LossyAux fuel rest
      | [] => [replChar]
    else if 0xF0 ≤ b && b ≤ 0xF4 then
      match rest with
      | b2 :: rest2 =>
        if valid4Second b b2 then
          match rest2 with
          | b3 :: rest3 =>
            if isCont b3 then
              match rest3 with
              | b4 :: rest4 =>
                if isCont b4 then
                  Char.ofNat ((b - 0xF0) * 0x40000 + (b2 - 0x80) * 0x1000 +
                      (b3 - 0x80) * 0x40 + (b4 - 0x80)) :: utf8LossyAux fuel rest4
                else replChar :: utf8LossyAux fuel rest3
              | [] => [replChar]
            else replChar :: utf8LossyAux fuel rest2
          | [] => [replChar]
        else replChar :: utf8LossyAux fuel rest
      | [] => [replChar]
    else replChar :: utf8LossyAux fuel rest

/-- `String::from_utf8_lossy` applied to one byte chunk: decode UTF-8,
replacing each maximal invalid subsequence with U+FFFD.  The source applies
this to every network chunk separately (`claude.rs` line 426). -/
def utf8Lossy (bytes : List Nat) : List Char := utf8LossyAux (bytes.length + 1) bytes

/-- UTF-8 encoding of one character (used to build concrete byte streams). -/
def utf8EncodeChar (c : Char) : List Nat :=
  let n := c.toNat
  if n < 0x80 then [n]
  else if n < 0x800 then [0xC0 + n / 0x40, 0x80 + n % 0x40]
  else if n < 0x10000 then
    [0xE0 + n / 0x1000, 0x80 + (n / 0x40) % 0x40, 0x80 + n % 0x40]
  else
    [0xF0 + n / 0x40000, 0x80 + (n / 0x1000) % 0x40, 0x80 + (n / 0x40) % 0x40, 0x80 + n % 0x40]

/-- UTF-8 encoding of a string as a byte list. -/
def utf8Encode (s : String) : List Nat := (s.data.map utf8EncodeChar).flatten

/-- Split a character buffer at every newline: the list of complete lines
(newline-terminated, newline excluded) and the trailing partial line.  This
is what the `while let Some(newline_pos) = buffer.find('\n')` loop of the
source extracts from the buffer. -/
def lineSplit : List Char → List (List Char) × List Char
  | [] => ([], [])
  | c :: rest =>
    let p := lineSplit rest
    if c = '\n' then ([] :: p.1, p.2)
    else
      match p.1 with
      | [] => ([], c :: p.2)
      | l :: ls => ((c :: l) :: ls, p.2)

/-- Rust `str::trim` on a character list (ASCII whitespace; the source's
`trim` also strips other Unicode whitespace, which the wire format never
produces). -/
def trimChars (l : List Char) : List Char :=
  ((l.dropWhile Char.isWhitespace).reverse.dropWhile Char.isWhitespace).reverse

/-- The `data: ` line marker tested by `line.starts_with("data: ")`. -/
def dataMarker : List Char := ['d', 'a', 't', 'a', ':', ' ']

/-- Turn one extracted line into a frame payload: trim, require the
`data: ` marker, drop it, and discard the `[DONE]` sentinel. -/
def frameOfLine (line : List Char) : Option String :=
  let t := trimChars line
  if dataMarker.isPrefixOf t then
    let payload := String.mk (t.drop 6)
    if payload = "[DONE]" then none else some payload
  else none

/-- Frame-splitter state: the pending partial line and the frames extracted
so far. -/
structure FeedState where
  buffer : List Char
  frames : List String

/-- Feed one network chunk to the frame splitter: lossy-decode it (the
source decodes each chunk separately), append to the buffer, extract every
complete line. -/
def feedChunk (fs : FeedState) (chunk : List Nat) : FeedState :=
  let p := lineSplit (fs.buffer ++ utf8Lossy chunk)
  ⟨p.2, fs.frames ++ p.1.filterMap frameOfLine⟩

/-- The frame-payload sequence extracted from a chunked byte stream; the
trailing partial line left in the buffer at input exhaustion is discarded. -/
def framesOfChunks (chunks : List (List Nat)) : List String :=
  (chunks.foldl feedChunk ⟨[], []⟩).frames

/-- `struct ToolUseState` of `claude.rs`: the open tool-use accumulator. -/
structure ToolUseState where
  id : String
  name : String
  input_json : String

/-- `struct ToolUseEvent` of `claude.rs`: one completed tool call. -/
structure ToolUseEvent where
  id : String
  name : String
  input : Json

/-- One notification pushed to the observer (a Tauri `emit` call):
`claude-stream-chunk`, `claude-tool-use`, `claude-message-stop` or
`claude-stream-error`. -/
inductive Emit where
  | streamChunk : String → Bool → Emit
  | toolUse : ToolUseEvent → Emit
  | messageStop : String → Emit
  | streamError : String → Emit

/-- `struct AssistantResponse` of `claude.rs`. -/
structure AssistantResponse where
  text_content : String
  tool_uses : List ToolUseEvent
  stop_reason : String

/-- `enum ClaudeError` of `claude.rs`. -/
inductive ClaudeError where
  | Network : String → ClaudeError
  | Api : String → ClaudeError
  | NoApiKey : ClaudeError
  | RateLimited : String → ClaudeError

/-- The per-call mutable state of `send_message_with_tools`: accumulated
text, completed tool calls, stop reason (initially `"end_turn"`), the open
tool-use accumulator, the trace of notifications pushed so far, and the
error message of the first in-stream `error` event if one occurred (the
source returns immediately at that point; the model records it and ignores
all later frames). -/
structure StreamState where
  text_content : String
  tool_uses : List ToolUseEvent
  stop_reason : String
  current_tool_use : Option ToolUseState
  emits : List Emit
  err : Option String

/-- Fresh state at the start of a `send_message_with_tools` call. -/
def initState : StreamState :=
  ⟨"", [], "end_turn", none, [], none⟩

/-- The `match event.event_type.as_str()` dispatch of
`send_message_with_tools` (`claude.rs` lines 442-543) on one decoded
event. -/
def handleEvent (st : StreamState) (event : StreamEvent) : StreamState :=
  if event.event_type = "content_block_start" then
    match event.content_block with
    | some block =>
      if block.block_type = "tool_use" then
        { st with current_tool_use := some ⟨block.id.getD "", block.name.getD "", ""⟩ }
      else st
    | none => st
  else if event.event_type = "content_block_delta" then
    match event.delta with
    | some delta =>
      if delta.delta_type = "text_delta" then
        match delta.text with
        | some t =>
          { st with text_content := st.text_content ++ t,
                    emits := st.emits ++ [Emit.streamChunk t false] }
        | none => st
      else if delta.delta_type = "input_json_delta" then
        match delta.partial_json with
        | some part =>
          match st.current_tool_use with
          | some tool =>
            { st with current_tool_use := some { tool with input_json := tool.input_json ++ part } }
          | none => st
        | none => st
      else st
    | none => st
  else if event.event_type = "content_block_stop" then
    match st.current_tool_use with
    | some tool =>
      let input := (Json.parse? tool.input_json).getD (Json.obj [])
      let ev : ToolUseEvent := ⟨tool.id, tool.name, input⟩
      { st with current_tool_use := none,
                tool_uses := st.tool_uses ++ [ev],
                emits := st.emits ++ [Emit.toolUse ev] }
    | none => st
  else if event.event_type = "message_delta" then st
  else if event.event_type = "message_stop" then
    let sr := match event.message with
      | some m => m.stop_reason.getD st.stop_reason
      | none => st.stop_reason
    { st with stop_reason := sr,
              emits := st.emits ++ [Emit.streamChunk "" true, Emit.messageStop sr] }
  else if event.event_type = "error" then
    match event.error with
    | some e =>
      let msg := e.error_type ++ ": " ++ e.message
      { st with emits := st.emits ++ [Emit.streamError msg], err := some msg }
    | none => st
  else st

/-- Process one frame payload: once an error event has aborted the call the
source has already returned, so the state is left unchanged; otherwise a
payload that fails to decode is dropped and a decoded event is dispatched. -/
def step (st : StreamState) (data : String) : StreamState :=
  if st.err.isSome then st
  else
    match decodeStreamEvent data with
    | some event => handleEvent st event
    | none => st

/-- Process a list of frame payloads in arrival order. -/
def processFrames (st : StreamState) (frames : List String) : StreamState :=
  frames.foldl step st

/-- The final state of `send_message_with_tools`'s stream loop on a chunked
byte stream. -/
def runStream (chunks : List (List Nat)) : StreamState :=
  processFrames initState (framesOfChunks chunks)

/-- The stream-processing core of `send_message_with_tools` (`claude.rs`
lines 413-559): the returned value together with the trace of notifications
pushed to the observer.  After the loop, `stop_reason` is overridden to
`"tool_use"` when tool calls exist and the reason still reads `"end_turn"`
(lines 549-552). -/
def send_message_with_tools (chunks : List (List Nat)) :
    Except ClaudeError AssistantResponse × List Emit :=
  match (runStream chunks).err with
  | some msg => (Except.error (ClaudeError.Api msg), (runStream chunks).emits)
  | none =>
    (Except.ok
      ⟨(runStream chunks).text_content, (runStream chunks).tool_uses,
        if !(runStream chunks).tool_uses.isEmpty && (runStream chunks).stop_reason == "end_turn"
        then "tool_use" else (runStream chunks).stop_reason⟩,
      (runStream chunks).emits)

/-- The per-call state of the plain `send_message` decoder. -/
structure PlainState where
  full_response : String
  emits : List Emit
  err : Option String

/-- Fresh state at the start of a `send_message` call. -/
def initPlain : PlainState := ⟨"", [], none⟩

/-- The event dispatch of `send_message` (`claude.rs` lines 288-329). -/
def handleEventPlain (st : PlainState) (event : StreamEvent) : PlainState :=
  if event.event_type = "content_block_delta" then
    match event.delta with
    | some delta =>
      if delta.delta_type = "text_delta" then
        match delta.text with
        | some t =>
          { st with full_response := st.full_response ++ t,
                    emits := st.emits ++ [Emit.streamChunk t false] }
        | none => st
      else st
    | none => st
  else if event.event_type = "message_stop" then
    { st with emits := st.emits ++ [Emit.streamChunk "" true] }
  else if event.event_type = "error" then
    match event.error with
    | some e =>
      let msg := e.error_type ++ ": " ++ e.message
      { st with emits := st.emits ++ [Emit.streamError msg], err := some msg }
    | none => st
  else st

/-- Process one frame payload in the plain decoder. -/
def stepPlain (st : PlainState) (data : String) : PlainState :=
  if st.err.isSome then st
  else
    match decodeStreamEvent data with
    | some event => handleEventPlain st event
    | none => st

/-- The final state of `send_message`'s stream loop on a chunked byte
stream. -/
def runPlain (chunks : List (List Nat)) : PlainState :=
  (framesOfChunks chunks).foldl stepPlain initPlain

/-- The stream-processing core of `send_message` (`claude.rs` lines
262-336). -/
def send_message (chunks : List (List Nat)) : Except ClaudeError String × List Emit :=
  match (runPlain chunks).err with
  | some msg => (Except.error (ClaudeError.Api msg), (runPlain chunks).emits)
  | none => (Except.ok (runPlain chunks).full_response, (runPlain chunks).emits)

/-- Concatenation of the texts of all `claude-stream-chunk` notifications
with `done = false` in a trace, in emission order. -/
def doneFalseText : List Emit → String
  | [] => ""
  | Emit.streamChunk t false :: rest => t ++ doneFalseText rest
  | _ :: rest => doneFalseText rest

/-- The `claude-tool-use` notifications of a trace, in emission order. -/
def toolEventsOf : List Emit → List ToolUseEvent
  | [] => []
  | Emit.toolUse ev :: rest => ev :: toolEventsOf rest
  | _ :: rest => toolEventsOf rest

/-- The stop reason after a frame sequence, starting from `cur`: the last
explicitly server-supplied `stop_reason` of a decodable `message_stop`
frame, else `cur`. -/
def srFold (cur : String) : List String → String
  | [] => cur
  | f :: fs =>
    match decodeStreamEvent f with
    | some e =>
      if e.event_type = "message_stop" then
        match e.message with
        | some m => srFold (m.stop_reason.getD cur) fs
        | none => srFold cur fs
      else srFold cur fs
    | none => srFold cur fs

/-- Does a frame payload decode to an `error` event carrying a payload (the
only frames that abort the call)? -/
def isErrFrame (f : String) : Bool :=
  match decodeStreamEvent f with
  | some e => e.event_type == "error" && e.error.isSome
  | none => false

/-- Does a frame payload decode to a `message_stop` event? -/
def isMsgStopFrame (f : String) : Bool :=
  match decodeStreamEvent f with
  | some e => e.event_type == "message_stop"
  | none => false

/-- The event kinds the dispatch of `send_message_with_tools` recognizes;
every other kind falls into the `_ => {}` arm. -/
def recognizedType (t : String) : Bool :=
  t == "content_block_start" || t == "content_block_delta" || t == "content_block_stop" ||
    t == "message_delta" || t == "message_stop" || t == "error"

/-- The mid-stream consistency invariant: the accumulated text is the
concatenation of all `done = false` chunk notifications pushed so far, and
the accumulated tool-call list is the list of tool-call notifications pushed
so far. -/
def SinkInv (st : StreamState) : Prop :=
  st.text_content = doneFalseText st.emits ∧ st.tool_uses = toolEventsOf st.emits

/-- The agreement relation between the plain decoder's state and the
tool-enabled decoder's state on the same frames. -/
def Agrees (pst : PlainState) (tst : StreamState) : Prop :=
  pst.full_response = tst.text_content ∧ pst.err = tst.err

/-- Bytes of a well-formed frame carrying the text delta `"é"`, cut right
after the first byte 0xC3 of the two-byte UTF-8 encoding of `é`: the part
before the cut. -/
def utf8SplitA : List Nat :=
  utf8Encode "data: \x7b\"type\":\"content_block_delta\",\"delta\":\x7b\"type\":\"text_delta\",\"text\":\"" ++
    [0xC3]

/-- The part of the same frame after the cut, starting with the second byte
0xA9 of the encoding of `é`. -/
def utf8SplitB : List Nat := [0xA9] ++ utf8Encode "\"\x7d\x7d\n"

/-- A stream whose `message_stop` frame carries an explicit server-supplied
`stop_reason` of `"end_turn"`, after a completed tool call. -/
def explicitEndTurnChunks : List (List Nat) :=
  [utf8Encode "data: \x7b\"type\":\"content_block_start\",\"content_block\":\x7b\"type\":\"tool_use\",\"id\":\"t1\",\"name\":\"lookup\"\x7d\x7d\ndata: \x7b\"type\":\"content_block_stop\"\x7d\ndata: \x7b\"type\":\"message_stop\",\"message\":\x7b\"stop_reason\":\"end_turn\"\x7d\x7d\n"]

/-- A stream consisting of a single `message_stop` frame. -/
def msgStopOnlyChunks : List (List Nat) :=
  [utf8Encode "data: \x7b\"type\":\"message_stop\"\x7d\n"]

/-- The same stream followed by one more frame: a text delta `"X"` arriving
after `message_stop`. -/
def msgStopThenTextChunks : List (List Nat) :=
  [utf8Encode "data: \x7b\"type\":\"message_stop\"\x7d\ndata: \x7b\"type\":\"content_block_delta\",\"delta\":\x7b\"type\":\"text_delta\",\"text\":\"X\"\x7d\x7d\n"]

/-- A two-text-delta stream with a closing `message_stop`. -/
def helloWorldChunks : List (List Nat) :=
  [utf8Encode "data: \x7b\"type\":\"content_block_delta\",\"delta\":\x7b\"type\":\"text_delta\",\"text\":\"Hello\"\x7d\x7d\ndata: \x7b\"type\":\"content_block_delta\",\"delta\":\x7b\"type\":\"text_delta\",\"text\":\" world\"\x7d\x7d\ndata: \x7b\"type\":\"message_stop\"\x7d\n"]

/-- A single text delta with no `message_stop` and no error. -/
def textOnlyChunks : List (List Nat) :=
  [utf8Encode "data: \x7b\"type\":\"content_block_delta\",\"delta\":\x7b\"type\":\"text_delta\",\"text\":\"Hello\"\x7d\x7d\n"]

/-- A text delta, then an in-stream `error` event, then another text delta. -/
def errorAfterTextChunks : List (List Nat) :=
  [utf8Encode "data: \x7b\"type\":\"content_block_delta\",\"delta\":\x7b\"type\":\"text_delta\",\"text\":\"Hi\"\x7d\x7d\ndata: \x7b\"type\":\"error\",\"error\":\x7b\"type\":\"overloaded_error\",\"message\":\"busy\"\x7d\x7d\ndata: \x7b\"type\":\"content_block_delta\",\"delta\":\x7b\"type\":\"text_delta\",\"text\":\"Z\"\x7d\x7d\n"]

/-- A state with an open tool-use block whose accumulated argument buffer is
the truncated JSON fragment of spec section 8. -/
def openTruncatedState : StreamState :=
  { initState with current_tool_use := some ⟨"t1", "lookup", "\x7b\"q\":"⟩ }

/-- A state with an open tool-use block, used to exhibit silent replacement
by a second `content_block_start`. -/
def openBlockState : StreamState :=
  { initState with current_tool_use := some ⟨"t1", "lookup", "\x7b\"q\":1\x7d"⟩ }

theorem string_append_assoc (a b c : String) : a ++ b ++ c = a ++ (b ++ c) := by
  apply String.ext
  simp [String.data_append]

theorem processFrames_nil (st : StreamState) : processFrames st [] = st := rfl

theorem processFrames_cons (st : StreamState) (f : String) (fs : List String) :
    processFrames st (f :: fs) = processFrames (step st f) fs := rfl

theorem processFrames_append (st : StreamState) (fs gs : List String) :
    processFrames st (fs ++ gs) = processFrames (processFrames st fs) gs :=
  List.foldl_append ..

theorem step_of_err (st : StreamState) (f : String) (h : st.err.isSome) : step st f = st := by
  simp [step, h]

theorem step_of_decode_none (st : StreamState) (f : String) (hd : decodeStreamEvent f = none)
    (he : st.err = none) : step st f = st := by
  simp [step, he, hd]

theorem step_of_decode_some (st : StreamState) (f : String) (e : StreamEvent)
    (hd : decodeStreamEvent f = some e) (he : st.err = none) : step st f = handleEvent st e := by
  simp [step, he, hd]

theorem handleEvent_err_none {st : StreamState} {e : StreamEvent}
    (h : (handleEvent st e).err = none) : st.err = none := by
  unfold handleEvent at h
  split_ifs at h <;> first
    | exact h
    | (repeat' split at h) <;> simp_all

theorem step_err_none {st : StreamState} {f : String}
    (h : (step st f).err = none) : st.err = none := by
  unfold step at h
  split_ifs at h with h1
  · exact h
  · split at h
    · exact handleEvent_err_none h
    · exact h

theorem processFrames_err_none {fs : List String} {st : StreamState}
    (h : (processFrames st fs).err = none) : st.err = none := by
  induction fs generalizing st with
  | nil => exact h
  | cons f fs ih => exact step_err_none (ih (by rwa [processFrames_cons] at h))

theorem processFrames_of_err (fs : List String) (st : StreamState) (h : st.err.isSome) :
    processFrames st fs = st := by
  induction fs with
  | nil => rfl
  | cons f fs ih => rw [processFrames_cons, step_of_err st f h, ih]

theorem handleEvent_msgStop (st : StreamState) (e : StreamEvent)
    (h : e.event_type = "message_stop") :
    handleEvent st e =
      { st with
        stop_reason := match e.message with
          | some m => m.stop_reason.getD st.stop_reason
          | none => st.stop_reason,
        emits := st.emits ++ [Emit.streamChunk "" true,
          Emit.messageStop (match e.message with
            | some m => m.stop_reason.getD st.stop_reason
            | none => st.stop_reason)] } := by
  simp [handleEvent, h]

theorem handleEvent_stop_reason_of_ne (st : StreamState) (e : StreamEvent)
    (h : ¬ e.event_type = "message_stop") :
    (handleEvent st e).stop_reason = st.stop_reason := by
  unfold handleEvent
  split_ifs <;> first
    | rfl
    | (repeat' split) <;> simp_all

theorem handleEvent_err_of_not_error (st : StreamState) (e : StreamEvent)
    (h : ¬ (e.event_type = "error" ∧ e.error.isSome)) :
    (handleEvent st e).err = st.err := by
  unfold handleEvent
  split_ifs <;> first
    | rfl
    | (repeat' split) <;> simp_all

theorem processFrames_stop_reason (fs : List String) (st : StreamState)
    (h : (processFrames st fs).err = none) :
    (processFrames st fs).stop_reason = srFold st.stop_reason fs := by
  induction fs generalizing st with
  | nil => rfl
  | cons f fs ih =>
    rw [processFrames_cons] at h ⊢
    have hst : st.err = none := step_err_none (processFrames_err_none h)
    cases hd : decodeStreamEvent f with
    | none =>
      rw [step_of_decode_none st f hd hst] at h ⊢
      rw [ih st h]
      simp [srFold, hd]
    | some e =>
      rw [step_of_decode_some st f e hd hst] at h ⊢
      by_cases hm : e.event_type = "message_stop"
      · rw [handleEvent_msgStop st e hm] at h ⊢
        rw [ih _ h]
        simp only [srFold, hd, hm, if_pos]
        cases e.message <;> rfl
      · rw [ih _ h, handleEvent_stop_reason_of_ne st e hm]
        simp [srFold, hd, hm]

theorem srFold_of_no_msgStop (fs : List String) (cur : String)
    (h : ∀ f ∈ fs, isMsgStopFrame f = false) : srFold cur fs = cur := by
  induction fs with
  | nil => rfl
  | cons f fs ih =>
    have hf := h f (by simp)
    have hrest : ∀ g ∈ fs, isMsgStopFrame g = false := fun g hg => h g (by simp [hg])
    unfold srFold
    cases hd : decodeStreamEvent f with
    | none => exact ih hrest
    | some e =>
      unfold isMsgStopFrame at hf
      rw [hd] at hf
      simp only [beq_eq_false_iff_ne, ne_eq] at hf
      simp only [hf, if_false]
      exact ih hrest

theorem processFrames_err_of_no_errFrames (fs : List String) (st : StreamState)
    (h1 : st.err = none) (h2 : ∀ f ∈ fs, isErrFrame f = false) :
    (processFrames st fs).err = none := by
  induction fs generalizing st with
  | nil => exact h1
  | cons f fs ih =>
    rw [processFrames_cons]
    have hf := h2 f (by simp)
    have hrest : ∀ g ∈ fs, isErrFrame g = false := fun g hg => h2 g (by simp [hg])
    cases hd : decodeStreamEvent f with
    | none =>
      rw [step_of_decode_none st f hd h1]
      exact ih st h1 hrest
    | some e =>
      rw [step_of_decode_some st f e hd h1]
      refine ih _ ?_ hrest
      rw [handleEvent_err_of_not_error st e ?_, h1]
      unfold isErrFrame at hf
      rw [hd] at hf
      simp only [Bool.and_eq_false_iff, beq_eq_false_iff_ne, ne_eq] at hf
      rintro ⟨ha, hb⟩
      rcases hf with hf | hf
      · exact hf ha
      · rw [hb] at hf
        simp at hf

theorem doneFalseText_append (xs ys : List Emit) :
    doneFalseText (xs ++ ys) = doneFalseText xs ++ doneFalseText ys := by
  induction xs with
  | nil => simp [doneFalseText, String.empty_append]
  | cons x xs ih =>
    cases x with
    | streamChunk t done =>
      cases done <;> simp [doneFalseText, ih, string_append_assoc]
    | toolUse ev => simpa [doneFalseText] using ih
    | messageStop sr => simpa [doneFalseText] using ih
    | streamError m => simpa [doneFalseText] using ih

theorem toolEventsOf_append (xs ys : List Emit) :
    toolEventsOf (xs ++ ys) = toolEventsOf xs ++ toolEventsOf ys := by
  induction xs with
  | nil => simp [toolEventsOf]
  | cons x xs ih =>
    cases x <;> simp [toolEventsOf, ih]

theorem handleEvent_sinkInv {st : StreamState} (e : StreamEvent) (h : SinkInv st) :
    SinkInv (handleEvent st e) := by
  obtain ⟨h1, h2⟩ := h
  unfold handleEvent SinkInv
  split_ifs <;> first
    | exact ⟨h1, h2⟩
    | (repeat' split) <;>
        constructor <;>
        simp_all [doneFalseText_append, toolEventsOf_append, doneFalseText, toolEventsOf,
          String.append_empty]

theorem step_sinkInv {st : StreamState} (f : String) (h : SinkInv st) : SinkInv (step st f) := by
  unfold step
  split_ifs
  · exact h
  · split
    · exact handleEvent_sinkInv _ h
    · exact h

theorem processFrames_sinkInv {st : StreamState} (fs : List String) (h : SinkInv st) :
    SinkInv (processFrames st fs) := by
  induction fs generalizing st with
  | nil => exact h
  | cons f fs ih => exact ih (step_sinkInv f h)

theorem handleEvent_agrees {pst : PlainState} {tst : StreamState} (e : StreamEvent)
    (h : Agrees pst tst) : Agrees (handleEventPlain pst e) (handleEvent tst e) := by
  obtain ⟨h1, h2⟩ := h
  unfold handleEventPlain handleEvent Agrees
  split_ifs <;> first
    | exact ⟨h1, h2⟩
    | (repeat' split) <;> constructor <;> simp_all

theorem step_agrees {pst : PlainState} {tst : StreamState} (f : String)
    (h : Agrees pst tst) : Agrees (stepPlain pst f) (step tst f) := by
  obtain ⟨h1, h2⟩ := h
  unfold stepPlain step
  rw [h2]
  split_ifs
  · exact ⟨h1, h2⟩
  · split
    · exact handleEvent_agrees _ ⟨h1, h2⟩
    · exact ⟨h1, h2⟩

theorem foldl_agrees (fs : List String) {pst : PlainState} {tst : StreamState}
    (h : Agrees pst tst) : Agrees (fs.foldl stepPlain pst) (processFrames tst fs) := by
  induction fs generalizing pst tst with
  | nil => exact h
  | cons f fs ih => exact ih (step_agrees f h)

/-- Claim C10: on every input byte stream the plain decoder `send_message`
returns exactly the `text_content` that the tool-enabled decoder
`send_message_with_tools` returns, and on an in-stream error event both
return the same `Api` error. -/
theorem send_message_agrees_with_tools (chunks : List (List Nat)) :
    (send_message chunks).1 =
      Except.map (fun r => r.text_content) (send_message_with_tools chunks).1 := by
  obtain ⟨h1, h2⟩ := @foldl_agrees (framesOfChunks chunks) initPlain initState ⟨rfl, rfl⟩
  unfold send_message send_message_with_tools runPlain runStream
  cases herr : (processFrames initState (framesOfChunks chunks)).err with
  | some m => rw [h2, herr]; rfl
  | none => rw [h2, herr, h1]; rfl

/-- Claim C4: whenever `send_message_with_tools` returns successfully, the
returned `text_content` is the concatenation, in emission order, of all
text chunks pushed to the sink with `done = false`, and the returned
`tool_uses` list is exactly the sequence of tool-call notifications pushed
to the sink. -/
theorem response_consistent_with_sink (chunks : List (List Nat)) (r : AssistantResponse)
    (h : (send_message_with_tools chunks).1 = Except.ok r) :
    r.text_content = doneFalseText (send_message_with_tools chunks).2 ∧
      r.tool_uses = toolEventsOf (send_message_with_tools chunks).2 := by
  obtain ⟨h1, h2⟩ := @processFrames_sinkInv initState (framesOfChunks chunks) ⟨rfl, rfl⟩
  unfold send_message_with_tools runStream at h ⊢
  cases herr : (processFrames initState (framesOfChunks chunks)).err with
  | some m => rw [herr] at h; exact absurd h (by simp)
  | none =>
    rw [herr] at h
    have hr : AssistantResponse.mk
        (processFrames initState (framesOfChunks chunks)).text_content
        (processFrames initState (framesOfChunks chunks)).tool_uses
        (if (!(processFrames initState (framesOfChunks chunks)).tool_uses.isEmpty &&
            (processFrames initState (framesOfChunks chunks)).stop_reason == "end_turn") = true
          then "tool_use"
          else (processFrames initState (framesOfChunks chunks)).stop_reason) = r :=
      Except.ok.inj h
    rw [← hr]
    exact ⟨h1, h2⟩

set_option maxRecDepth 8192 in
/-- Closed witness for claim C4 on the two-delta stream of spec section 8. -/
theorem response_consistent_with_sink_witness :
    "Hello world" =
        doneFalseText (send_message_with_tools helloWorldChunks).2 ∧
      ([] : List ToolUseEvent) = toolEventsOf (send_message_with_tools helloWorldChunks).2 :=
  response_consistent_with_sink helloWorldChunks ⟨"Hello world", [], "end_turn"⟩ rfl

/-- Claim C5: when the accumulated tool-argument buffer fails JSON parsing
at `content_block_stop` (for instance because it is truncated), the tool
call is recorded and notified with the empty JSON object as its input, and
the call neither aborts nor records an error. -/
theorem malformed_tool_json_empty_object (st : StreamState) (f : String) (e : StreamEvent)
    (tool : ToolUseState) (hd : decodeStreamEvent f = some e)
    (he : e.event_type = "content_block_stop") (hs : st.err = none)
    (ht : st.current_tool_use = some tool) (hp : Json.parse? tool.input_json = none) :
    step st f = { st with
      current_tool_use := none,
      tool_uses := st.tool_uses ++ [⟨tool.id, tool.name, Json.obj []⟩],
      emits := st.emits ++ [Emit.toolUse ⟨tool.id, tool.name, Json.obj []⟩] } := by
  rw [step_of_decode_some st f e hd hs]
  simp [handleEvent, he, ht, hp]

/-- Closed witness for claim C5: the truncated buffer of spec section 8
yields a tool call with input the empty object. -/
theorem malformed_tool_json_empty_object_witness :
    step openTruncatedState "\x7b\"type\":\"content_block_stop\"\x7d" =
      { openTruncatedState with
        current_tool_use := none,
        tool_uses := [⟨"t1", "lookup", Json.obj []⟩],
        emits := [Emit.toolUse ⟨"t1", "lookup", Json.obj []⟩] } :=
  malformed_tool_json_empty_object openTruncatedState "\x7b\"type\":\"content_block_stop\"\x7d"
    ⟨"content_block_stop", none, none, none, none, none⟩
    ⟨"t1", "lookup", "\x7b\"q\":"⟩ rfl rfl rfl rfl rfl

/-- Claim C6: the open tool-use accumulator is an `Option` (so at most one
exists at any time); a `content_block_stop` always leaves the no-open-block
state, even when the buffered JSON fails to parse; a `content_block_stop`
with no open block changes nothing; and a second tool-use
`content_block_start` silently replaces the open accumulator (touching no
other state and raising no error) instead of erroring. -/
theorem open_block_discipline (st : StreamState) (f : String) (e : StreamEvent)
    (hd : decodeStreamEvent f = some e) (hs : st.err = none) :
    (e.event_type = "content_block_stop" → (step st f).current_tool_use = none) ∧
    (e.event_type = "content_block_stop" → st.current_tool_use = none → step st f = st) ∧
    (∀ block, e.event_type = "content_block_start" → e.content_block = some block →
      block.block_type = "tool_use" →
      step st f =
        { st with current_tool_use := some ⟨block.id.getD "", block.name.getD "", ""⟩ }) := by
  rw [step_of_decode_some st f e hd hs]
  refine ⟨?_, ?_, ?_⟩
  · intro h
    cases htc : st.current_tool_use <;> simp [handleEvent, h, htc]
  · intro h hn
    simp [handleEvent, h, hn]
  · intro block h hb hbt
    simp [handleEvent, h, hb, hbt]

/-- Closed witness for claim C6: while the accumulator of tool `t1` is
open, a second tool-use `content_block_start` silently replaces it. -/
theorem open_block_discipline_witness :
    step openBlockState
        "\x7b\"type\":\"content_block_start\",\"content_block\":\x7b\"type\":\"tool_use\",\"id\":\"t2\",\"name\":\"other\"\x7d\x7d" =
      { openBlockState with current_tool_use := some ⟨"t2", "other", ""⟩ } :=
  (open_block_discipline openBlockState
      "\x7b\"type\":\"content_block_start\",\"content_block\":\x7b\"type\":\"tool_use\",\"id\":\"t2\",\"name\":\"other\"\x7d\x7d"
      ⟨"content_block_start", none, some ⟨"tool_use", some "t2", some "other"⟩, none, none, none⟩
      rfl rfl).2.2 ⟨"tool_use", some "t2", some "other"⟩ rfl rfl rfl

/-- Claim C9: a frame whose payload fails strict JSON decoding into a
`StreamEvent`, and a frame whose declared event kind is none of the
recognized ones, are dropped with no state change and no error, and
processing of the remaining frames continues as if the frame were absent. -/
theorem undecodable_or_unknown_frame_dropped (st : StreamState) (f : String)
    (h : decodeStreamEvent f = none ∨
      ∃ e, decodeStreamEvent f = some e ∧ recognizedType e.event_type = false) :
    step st f = st ∧ ∀ fs, processFrames st (f :: fs) = processFrames st fs := by
  have hstep : step st f = st := by
    cases hse : st.err with
    | some m => exact step_of_err st f (by rw [hse]; rfl)
    | none =>
      rcases h with h | ⟨e, hd, hr⟩
      · exact step_of_decode_none st f h hse
      · rw [step_of_decode_some st f e hd hse]
        simp only [recognizedType, Bool.or_eq_false_iff, beq_eq_false_iff_ne, ne_eq] at hr
        obtain ⟨⟨⟨⟨⟨n1, n2⟩, n3⟩, n4⟩, n5⟩, n6⟩ := hr
        simp [handleEvent, n1, n2, n3, n4, n5, n6]
  exact ⟨hstep, fun fs => by rw [processFrames_cons, hstep]⟩

/-- Closed witness for claim C9: a decodable frame of the unrecognized kind
`ping` leaves the fresh state unchanged. -/
theorem undecodable_or_unknown_frame_dropped_witness :
    step initState "\x7b\"type\":\"ping\"\x7d" = initState :=
  (undecodable_or_unknown_frame_dropped initState "\x7b\"type\":\"ping\"\x7d"
    (Or.inr ⟨⟨"ping", none, none, none, none, none⟩, rfl, rfl⟩)).1

/-- Counterexample to claim C3 as stated: the claim says no frame after
`message_stop` changes the accumulated text, yet a text delta `"X"`
arriving after `message_stop` makes the returned text `"X"`, while the
stream truncated at `message_stop` returns `""`. -/
theorem frame_after_message_stop_changes_text :
    (send_message_with_tools msgStopThenTextChunks).1 =
      Except.ok ⟨"X", [], "end_turn"⟩ ∧
    (send_message_with_tools msgStopOnlyChunks).1 =
      Except.ok ⟨"", [], "end_turn"⟩ :=
  ⟨rfl, rfl⟩

/-- Claim C3 amended: processing a `message_stop` frame records the stop
reason and pushes the stream-end notifications, but does not make the
stream terminal: the accumulated text, tool-call list and open accumulator
are unchanged, no error is recorded, and the remaining frames are processed
from the updated state exactly as usual (the source loop has no break, so
any buffered remainder is discarded only at input exhaustion). -/
theorem message_stop_not_terminal (st : StreamState) (f : String) (e : StreamEvent)
    (fs : List String) (hd : decodeStreamEvent f = some e)
    (hm : e.event_type = "message_stop") (hs : st.err = none) :
    processFrames st (f :: fs) = processFrames (step st f) fs ∧
    (step st f).text_content = st.text_content ∧
    (step st f).tool_uses = st.tool_uses ∧
    (step st f).current_tool_use = st.current_tool_use ∧
    (step st f).err = none := by
  rw [processFrames_cons, step_of_decode_some st f e hd hs, handleEvent_msgStop st e hm]
  exact ⟨rfl, rfl, rfl, rfl, hs⟩

/-- Closed witness for claim C3 (amended) at the `message_stop` frame of
the concrete two-frame stream. -/
theorem message_stop_not_terminal_witness :
    processFrames initState
        ["\x7b\"type\":\"message_stop\"\x7d",
         "\x7b\"type\":\"content_block_delta\",\"delta\":\x7b\"type\":\"text_delta\",\"text\":\"X\"\x7d\x7d"] =
      processFrames (step initState "\x7b\"type\":\"message_stop\"\x7d")
        ["\x7b\"type\":\"content_block_delta\",\"delta\":\x7b\"type\":\"text_delta\",\"text\":\"X\"\x7d\x7d"] ∧
    (step initState "\x7b\"type\":\"message_stop\"\x7d").text_content = initState.text_content ∧
    (step initState "\x7b\"type\":\"message_stop\"\x7d").tool_uses = initState.tool_uses ∧
    (step initState "\x7b\"type\":\"message_stop\"\x7d").current_tool_use =
      initState.current_tool_use ∧
    (step initState "\x7b\"type\":\"message_stop\"\x7d").err = none :=
  message_stop_not_terminal initState "\x7b\"type\":\"message_stop\"\x7d"
    ⟨"message_stop", none, none, none, none, none⟩
    ["\x7b\"type\":\"content_block_delta\",\"delta\":\x7b\"type\":\"text_delta\",\"text\":\"X\"\x7d\x7d"]
    rfl rfl rfl

set_option maxRecDepth 8192 in
/-- Counterexample to claim C2 as stated: the stream delivers an explicit
server-supplied `stop_reason` of `"end_turn"` in its `message_stop` frame
(first two conjuncts), one tool call completed, and the call returns
`"tool_use"` instead of the explicit `"end_turn"`: an explicit reason does
not always win. -/
theorem explicit_end_turn_is_overridden :
    framesOfChunks explicitEndTurnChunks =
      ["\x7b\"type\":\"content_block_start\",\"content_block\":\x7b\"type\":\"tool_use\",\"id\":\"t1\",\"name\":\"lookup\"\x7d\x7d",
       "\x7b\"type\":\"content_block_stop\"\x7d",
       "\x7b\"type\":\"message_stop\",\"message\":\x7b\"stop_reason\":\"end_turn\"\x7d\x7d"] ∧
    decodeStreamEvent "\x7b\"type\":\"message_stop\",\"message\":\x7b\"stop_reason\":\"end_turn\"\x7d\x7d" =
      some ⟨"message_stop", none, none, none, some ⟨some "end_turn"⟩, none⟩ ∧
    (send_message_with_tools explicitEndTurnChunks).1 =
      Except.ok ⟨"", [⟨"t1", "lookup", Json.obj []⟩], "tool_use"⟩ :=
  ⟨rfl, rfl, rfl⟩

/-- Claim C2 amended: the returned `stop_reason` is the last explicitly
server-supplied reason, defaulting to `"end_turn"` when none arrived, and
is overridden to `"tool_use"` exactly when at least one tool call completed
and that prevailing reason equals `"end_turn"` — whether the `"end_turn"`
was the default or explicitly supplied; an explicit reason other than
`"end_turn"` is always returned unchanged. -/
theorem stop_reason_tiebreak (chunks : List (List Nat)) (r : AssistantResponse)
    (h : (send_message_with_tools chunks).1 = Except.ok r) :
    r.stop_reason =
      if !r.tool_uses.isEmpty && srFold "end_turn" (framesOfChunks chunks) == "end_turn"
      then "tool_use" else srFold "end_turn" (framesOfChunks chunks) := by
  unfold send_message_with_tools runStream at h
  cases herr : (processFrames initState (framesOfChunks chunks)).err with
  | some m => rw [herr] at h; exact absurd h (by simp)
  | none =>
    rw [herr] at h
    have hsr : (processFrames initState (framesOfChunks chunks)).stop_reason =
        srFold "end_turn" (framesOfChunks chunks) :=
      processFrames_stop_reason (framesOfChunks chunks) initState herr
    have hr := Except.ok.inj h
    rw [← hr]
    show (if (!(processFrames initState (framesOfChunks chunks)).tool_uses.isEmpty &&
        (processFrames initState (framesOfChunks chunks)).stop_reason == "end_turn") = true
      then "tool_use" else (processFrames initState (framesOfChunks chunks)).stop_reason) = _
    rw [hsr]

set_option maxRecDepth 8192 in
/-- Closed witness for claim C2 (amended) on the two-delta stream, whose
`message_stop` carries no explicit reason. -/
theorem stop_reason_tiebreak_witness :
    (AssistantResponse.mk "Hello world" [] "end_turn").stop_reason =
      if !(AssistantResponse.mk "Hello world" [] "end_turn").tool_uses.isEmpty &&
          srFold "end_turn" (framesOfChunks helloWorldChunks) == "end_turn"
      then "tool_use" else srFold "end_turn" (framesOfChunks helloWorldChunks) :=
  stop_reason_tiebreak helloWorldChunks (AssistantResponse.mk "Hello world" [] "end_turn") rfl

/-- Claim C7: an `error`-type event carrying a payload, arriving at any
point (after any error-free prefix, regardless of what it accumulated and
delivered), makes the call emit an error notification and return an `Api`
error carrying the server's error type and message; the notifications
already delivered before the abort are preserved, not retracted. -/
theorem error_event_aborts_call (chunks : List (List Nat)) (pre post : List String)
    (f : String) (e : StreamEvent) (aerr : ApiError)
    (hsplit : framesOfChunks chunks = pre ++ f :: post)
    (hd : decodeStreamEvent f = some e) (het : e.event_type = "error")
    (hae : e.error = some aerr) (hpre : ∀ g ∈ pre, isErrFrame g = false) :
    (send_message_with_tools chunks).1 =
      Except.error (ClaudeError.Api (aerr.error_type ++ ": " ++ aerr.message)) ∧
    (send_message_with_tools chunks).2 =
      (processFrames initState pre).emits ++
        [Emit.streamError (aerr.error_type ++ ": " ++ aerr.message)] := by
  have hpe : (processFrames initState pre).err = none :=
    processFrames_err_of_no_errFrames pre initState rfl hpre
  have hstep : step (processFrames initState pre) f =
      { processFrames initState pre with
        emits := (processFrames initState pre).emits ++
          [Emit.streamError (aerr.error_type ++ ": " ++ aerr.message)],
        err := some (aerr.error_type ++ ": " ++ aerr.message) } := by
    rw [step_of_decode_some _ _ _ hd hpe]
    simp [handleEvent, het, hae]
  have hrun : runStream chunks =
      { processFrames initState pre with
        emits := (processFrames initState pre).emits ++
          [Emit.streamError (aerr.error_type ++ ": " ++ aerr.message)],
        err := some (aerr.error_type ++ ": " ++ aerr.message) } := by
    rw [runStream, hsplit, processFrames_append, processFrames_cons, hstep,
      processFrames_of_err]
    rfl
  unfold send_message_with_tools
  rw [hrun]
  exact ⟨rfl, rfl⟩

set_option maxRecDepth 8192 in
/-- Closed witness for claim C7: an error event after a delivered text
chunk aborts with the server's message, and the earlier chunk notification
survives in the trace. -/
theorem error_event_aborts_call_witness :
    (send_message_with_tools errorAfterTextChunks).1 =
      Except.error (ClaudeError.Api ("overloaded_error" ++ ": " ++ "busy")) ∧
    (send_message_with_tools errorAfterTextChunks).2 =
      (processFrames initState
          ["\x7b\"type\":\"content_block_delta\",\"delta\":\x7b\"type\":\"text_delta\",\"text\":\"Hi\"\x7d\x7d"]).emits ++
        [Emit.streamError ("overloaded_error" ++ ": " ++ "busy")] :=
  error_event_aborts_call errorAfterTextChunks
    ["\x7b\"type\":\"content_block_delta\",\"delta\":\x7b\"type\":\"text_delta\",\"text\":\"Hi\"\x7d\x7d"]
    ["\x7b\"type\":\"content_block_delta\",\"delta\":\x7b\"type\":\"text_delta\",\"text\":\"Z\"\x7d\x7d"]
    "\x7b\"type\":\"error\",\"error\":\x7b\"type\":\"overloaded_error\",\"message\":\"busy\"\x7d\x7d"
    ⟨"error", none, none, none, none, some ⟨"overloaded_error", "busy"⟩⟩
    ⟨"overloaded_error", "busy"⟩ rfl rfl rfl rfl (by decide)

/-- Claim C8: when the input is exhausted with no `message_stop` event
having arrived (and no aborting error event), the call still succeeds with
everything accumulated, and the stop reason is `"end_turn"` when no tool
call completed and `"tool_use"` when at least one did. -/
theorem exhaustion_without_stop_succeeds (chunks : List (List Nat))
    (hstop : ∀ f ∈ framesOfChunks chunks, isMsgStopFrame f = false)
    (herrf : ∀ f ∈ framesOfChunks chunks, isErrFrame f = false) :
    (send_message_with_tools chunks).1 =
      Except.ok ⟨(runStream chunks).text_content, (runStream chunks).tool_uses,
        if (runStream chunks).tool_uses.isEmpty then "end_turn" else "tool_use"⟩ := by
  have hen : (runStream chunks).err = none :=
    processFrames_err_of_no_errFrames (framesOfChunks chunks) initState rfl herrf
  have hsr : (runStream chunks).stop_reason = "end_turn" :=
    calc (runStream chunks).stop_reason
        = srFold "end_turn" (framesOfChunks chunks) :=
          processFrames_stop_reason (framesOfChunks chunks) initState hen
      _ = "end_turn" := srFold_of_no_msgStop (framesOfChunks chunks) "end_turn" hstop
  unfold send_message_with_tools
  rw [hen, hsr]
  cases hti : (runStream chunks).tool_uses.isEmpty <;> simp [hti]

set_option maxRecDepth 8192 in
/-- Closed witness for claim C8 on a single text delta with no
`message_stop`. -/
theorem exhaustion_without_stop_succeeds_witness :
    (send_message_with_tools textOnlyChunks).1 =
      Except.ok ⟨"Hello", [], "end_turn"⟩ :=
  exhaustion_without_stop_succeeds textOnlyChunks (by decide) (by decide)

set_option maxRecDepth 8192 in
/-- Claim C1 fails on the code: the source lossy-decodes each network chunk
separately (`String::from_utf8_lossy(&chunk)`, `claude.rs` line 426), so
cutting the same well-formed frame stream inside the two-byte UTF-8
encoding of `é` replaces the code point by two U+FFFD replacement
characters, changing both the extracted frame-payload sequence and the
returned `AssistantResponse`. -/
theorem utf8_chunk_split_changes_frames_and_response :
    (send_message_with_tools [utf8SplitA ++ utf8SplitB]).1 =
      Except.ok ⟨"é", [], "end_turn"⟩ ∧
    (send_message_with_tools [utf8SplitA, utf8SplitB]).1 =
      Except.ok ⟨"��", [], "end_turn"⟩ ∧
    framesOfChunks [utf8SplitA, utf8SplitB] ≠ framesOfChunks [utf8SplitA ++ utf8SplitB] :=
  ⟨rfl, rfl, by decide⟩

end Writecraft
